import Mathlib

/-
Verification of the nengo_dl builder module (nengo_dl/builder.py):
a shallow embedding of the operator-to-TensorFlow-graph build
orchestration, the builder registry, the OpBuilder base class, the
NengoBuilder dispatch wrapper, and the NengoModel fail-fast policy.

Modelling conventions:
- Operator types (Python classes used as registry keys) are `Nat` tags.
- `tf.Tensor` / `tf.Variable` handles are `Nat` tags.
- `SignalDict` maps abstract signal ids to tensor handles; modelled as an
  association list `List (Nat × Nat)` mutated by explicit state passing.
- Python dictionaries (`Builder.builders`, `Builder.op_builds`) are
  association lists with Python dict semantics: overwriting an existing
  key keeps its position, a fresh key is appended at the end.
- Python exceptions are modelled by `Except Exc`; functions whose Python
  counterparts mutate `self` in place before possibly raising return the
  mutated state alongside an `Option Exc`.
- `tf.Graph.name_scope` and debug logging have no semantic effect on the
  properties here and are omitted.
-/

set_option autoImplicit false

namespace NengoDL

/-- A nengo operator: `typ` is the tag of its concrete Python type
(`type(op)`), `uid` distinguishes operator instances. -/
structure Operator where
  typ : Nat
  uid : Nat
deriving DecidableEq, Repr

/-- An operator group `ops`: a nonempty tuple of operators.  `first`
models `ops[0]`, whose type is the group's representative type. -/
structure OpGroup where
  first : Operator
  rest : List Operator
deriving DecidableEq, Repr

/-- The representative operator type of a group: `type(ops[0])`. -/
def OpGroup.repType (g : OpGroup) : Nat :=
  g.first.typ

/-- Mapping from Signal to tf.Tensor (`signals.SignalDict`), abstract. -/
def SignalDict : Type := List (Nat × Nat)

instance : DecidableEq SignalDict := by
  unfold SignalDict
  infer_instance

/-- The argument of the `BuildError` raised by `Builder.pre_build`
("No registered builder for operators of type %r" names the type tag) or
by the base `OpBuilder.build_step` ("OpBuilders must implement a
`build_step` function"). -/
inductive BuildErr where
  | noBuilderFor (opType : Nat)
  | stepUnimplemented
  | custom (code : Nat)
deriving DecidableEq, Repr

/-- A Python exception: either a `BuildError` (the class caught by
`NengoBuilder.build`), the `KeyError` from a missing `op_builds` entry,
or any other exception class. -/
inductive Exc where
  | buildError (e : BuildErr)
  | keyError
  | other (code : Nat)
deriving DecidableEq, Repr

/-- `BuildConfig`, an immutable namedtuple.  `lif_smoothing` is a float
in the source; it is never computed with here, so it is an opaque tag. -/
structure BuildConfig where
  inference_only : Bool
  lif_smoothing : Nat
  cpu_only : Bool
deriving DecidableEq, Repr

/-- Association-list lookup with leftmost-match semantics (`d[k]`). -/
def alookup {α β : Type} [DecidableEq α] (k : α) : List (α × β) → Option β
  | [] => none
  | (a, b) :: d => if a = k then some b else alookup k d

/-- Association-list insert with Python dict semantics (`d[k] = v`): an
existing key keeps its position and gets the new value, a fresh key is
appended at the end. -/
def ainsert {α β : Type} [DecidableEq α] (k : α) (v : β) : List (α × β) → List (α × β)
  | [] => [(k, v)]
  | (a, b) :: d => if a = k then (a, v) :: d else (a, b) :: ainsert k v d

/-- What a build class's `build_step` returns, as classified by
`Builder.build`: a single `tf.Tensor`/`tf.Variable`, a list/tuple of
tensors, or anything else (such as `None`). -/
inductive StepOutput where
  | tensor (t : Nat)
  | seq (ts : List Nat)
  | otherValue
deriving DecidableEq, Repr

/-- An instantiated OpBuilder.  The base `OpBuilder.__init__` stores the
config on the instance; `stepImpl`/`postImpl` model the subclass's method
overrides (`none` means the method is not overridden, so Python method
resolution falls through to the base `OpBuilder` implementation). -/
structure OpBuilderInst where
  config : BuildConfig
  stepImpl : Option (SignalDict → Except Exc (StepOutput × SignalDict))
  postImpl : Option (OpGroup → SignalDict → SignalDict)

/-- The base `OpBuilder.build_step`: unconditionally raises
`BuildError("OpBuilders must implement a build_step function")`. -/
def OpBuilder.baseBuildStep (_signals : SignalDict) :
    Except Exc (StepOutput × SignalDict) :=
  .error (.buildError .stepUnimplemented)

/-- Method resolution for `build_step` on an instance: the subclass
override if the class provides one, else the base implementation. -/
def OpBuilderInst.buildStep (inst : OpBuilderInst) (signals : SignalDict) :
    Except Exc (StepOutput × SignalDict) :=
  match inst.stepImpl with
  | some f => f signals
  | none => OpBuilder.baseBuildStep signals

/-- The base `OpBuilder.__init__(self, ops, signals, config)`: stores
`config` on the instance (`self.config = config`), defines no method
overrides, and does not touch `signals` (logging aside). -/
def OpBuilder.init (_ops : OpGroup) (signals : SignalDict) (config : BuildConfig) :
    OpBuilderInst × SignalDict :=
  ({ config := config, stepImpl := none, postImpl := none }, signals)

/-- The static `OpBuilder.mergeable(x, y)`: always returns `False`. -/
def OpBuilder.mergeable (_x _y : Operator) : Bool :=
  false

/-- A build class registered with `Builder.register`: a constructor (the
subclass `__init__`, which may precompute constants into `signals`) plus
whether the class inherits from `OpBuilder` (checked by `register`). -/
structure OpBuilderClass where
  isOpBuilderSubclass : Bool
  init : OpGroup → SignalDict → BuildConfig → OpBuilderInst × SignalDict

/-- The build class corresponding to the base `OpBuilder` itself. -/
def OpBuilder.baseClass : OpBuilderClass :=
  { isOpBuilderSubclass := true, init := OpBuilder.init }

/-- The registry `Builder.builders`: operator type tag to build class. -/
def Registry : Type := List (Nat × OpBuilderClass)

/-- The warnings `Builder.register` can emit via `warnings.warn`. -/
inductive RegWarning where
  | shouldInheritOpBuilder
  | alreadyHasBuilder (opType : Nat)
deriving DecidableEq, Repr

/-- `Builder.register(nengo_op)` applied to `build_class`: warns if the
class does not inherit from `OpBuilder`, warns ("Operator already has a
builder. Overwriting.") if the type is already registered, then stores
the class under the type.  Total: never raises. -/
def Builder.register (builders : Registry) (nengo_op : Nat)
    (build_class : OpBuilderClass) : Registry × List RegWarning :=
  let w1 : List RegWarning :=
    if build_class.isOpBuilderSubclass then [] else [.shouldInheritOpBuilder]
  let w2 : List RegWarning :=
    if (alookup nengo_op builders).isSome then [.alreadyHasBuilder nengo_op] else []
  (ainsert nengo_op build_class builders, w1 ++ w2)

/-- The mutable state of a `Builder` instance: the plan, the shared
signal mapping, the config, and the `op_builds` dict from group to
instantiated build class (empty at construction). -/
structure Builder where
  plan : List OpGroup
  signals : SignalDict
  config : BuildConfig
  op_builds : List (OpGroup × OpBuilderInst)

/-- Result of `Builder.pre_build`: the builder state when the loop
stopped, the groups whose build class was instantiated (in order), and
the exception that aborted the loop, if any. -/
structure PreBuildResult where
  builder : Builder
  instantiated : List OpGroup
  err : Option Exc

/-- The loop body of `Builder.pre_build` over the remaining plan
suffix: for each group, look up `type(ops[0])` in the registry (raising
`BuildError` naming the type if absent), instantiate the build class on
the shared signals, and store the instance under the group key. -/
def Builder.preBuildFrom (builders : Registry) :
    Builder → List OpGroup → PreBuildResult
  | b, [] => ⟨b, [], none⟩
  | b, ops :: plan_rest =>
    match alookup ops.repType builders with
    | none => ⟨b, [], some (.buildError (.noBuilderFor ops.repType))⟩
    | some cls =>
      let r := cls.init ops b.signals b.config
      let b' : Builder :=
        { b with signals := r.2, op_builds := ainsert ops r.1 b.op_builds }
      let res := Builder.preBuildFrom builders b' plan_rest
      ⟨res.builder, ops :: res.instantiated, res.err⟩

/-- `Builder.pre_build(self)`: the loop over `self.plan`. -/
def Builder.preBuild (builders : Registry) (b : Builder) : PreBuildResult :=
  Builder.preBuildFrom builders b b.plan

/-- Result of `Builder.build`: the builder state when the loop stopped,
the accumulated `side_effects` list, the groups whose `build_step` was
invoked (in order), and the exception that aborted the loop, if any. -/
structure BuildOutcome where
  builder : Builder
  side_effects : List Nat
  calls : List OpGroup
  err : Option Exc

/-- The loop body of `Builder.build` over the remaining plan suffix,
carrying the `side_effects` accumulator and the invocation log: for each
group, invoke `self.op_builds[ops].build_step(self.signals)` (a missing
key raises `KeyError`), then append the output if it is a single
tensor/variable, extend with it if it is a list/tuple, and ignore it
otherwise. -/
def Builder.buildFrom :
    Builder → List OpGroup → List Nat → List OpGroup → BuildOutcome
  | b, [], acc, log => ⟨b, acc, log, none⟩
  | b, ops :: plan_rest, acc, log =>
    match alookup ops b.op_builds with
    | none => ⟨b, acc, log, some .keyError⟩
    | some inst =>
      match inst.buildStep b.signals with
      | .error e => ⟨b, acc, log ++ [ops], some e⟩
      | .ok (out, signals') =>
        let acc' :=
          match out with
          | .tensor t => acc ++ [t]
          | .seq ts => acc ++ ts
          | .otherValue => acc
        Builder.buildFrom { b with signals := signals' } plan_rest acc' (log ++ [ops])

/-- `Builder.build(self)`: the loop over `self.plan` starting from an
empty `side_effects` list. -/
def Builder.build (b : Builder) : BuildOutcome :=
  Builder.buildFrom b b.plan [] []

/-- Spec-side description of one `build_step` output's contribution to
the side-effect collection: "a scalar output contributes one element, a
sequence output is fully expanded in place, and nothing else is
included". -/
def flattenOutput : StepOutput → List Nat
  | .tensor t => [t]
  | .seq ts => ts
  | .otherValue => []

/-- Spec-side trace of the `build_step` outputs of every group along the
plan, in plan order, threading the shared signal state; the trace stops
at the first missing builder or raising step. -/
def Builder.outputTrace : Builder → List OpGroup → List StepOutput
  | _, [] => []
  | b, ops :: plan_rest =>
    match alookup ops b.op_builds with
    | none => []
    | some inst =>
      match inst.buildStep b.signals with
      | .error _ => []
      | .ok (out, signals') =>
        out :: Builder.outputTrace { b with signals := signals' } plan_rest

/-- `NengoBuilder.build(cls, model, obj, ...)`: first attempt the base
nengo dispatch with the NengoDL override registry (`NengoBuilder`
passed as `cls`); if that raises a `BuildError` (and only then), fall
back on the same dispatch with the default nengo registry
(`builder.Builder` passed as `cls`) and return its result.  The base
nengo `builder.Builder.build` dispatch is external to this repository
and is abstracted as `dispatch`, applied to the registry owner and the
object. -/
def NengoBuilder.build {Reg Obj Res : Type}
    (dispatch : Reg → Obj → Except Exc Res)
    (dlBuilders coreBuilders : Reg) (obj : Obj) : Except Exc Res :=
  match dispatch dlBuilders obj with
  | .ok r => .ok r
  | .error (.buildError _) => dispatch coreBuilders obj
  | .error e => .error e

/-- An operator as seen by `NengoModel.add_op`: `initSignals` models
`op.init_signals(signals)` (binding the op's signals into a sigdict) and
`makeStep` models `op.make_step(signals, dt, np.random)`, which may
raise.  The unseeded global generator `np.random` is opaque and
omitted. -/
structure ModelOp where
  initSignals : SignalDict → SignalDict
  makeStep : SignalDict → Nat → Except Exc Unit

/-- `NengoModel` state: the construction-time `fail_fast` flag, the
timestep `dt` inherited from `nengo.builder.Model` (opaque tag), and the
`operators` list. -/
structure NengoModel where
  fail_fast : Bool
  dt : Nat
  operators : List ModelOp

/-- Result of `NengoModel.add_op`: the model state after the call
(mutated in place even when an exception propagates), the number of
times `op.make_step` was invoked, and the propagated exception, if
any. -/
structure AddOpResult where
  model : NengoModel
  makeStepCalls : Nat
  err : Option Exc

/-- `NengoModel.add_op(self, op)`: append `op` to `self.operators`;
then, only if `self.fail_fast`, build a temporary `SignalDict`, bind the
op's signals into it, and call `op.make_step` — whose exception, if any,
propagates out of `add_op` after the append already happened. -/
def NengoModel.addOp (m : NengoModel) (op : ModelOp) : AddOpResult :=
  let m' : NengoModel := { m with operators := m.operators ++ [op] }
  if m.fail_fast then
    let signals : SignalDict := []
    let signals := op.initSignals signals
    match op.makeStep signals m.dt with
    | .ok _ => ⟨m', 1, none⟩
    | .error e => ⟨m', 1, some e⟩
  else
    ⟨m', 0, none⟩

/-- Spec-side flattening of a whole output trace: the concatenation, in
plan order, of each output's contribution. -/
def flattenAll : List StepOutput → List Nat
  | [] => []
  | o :: os => flattenOutput o ++ flattenAll os

/- Concrete fixtures used to instantiate the theorems below on closed
inputs.  They are test data, not translations of source code. -/

/-- Fixture: a build config. -/
def cfg0 : BuildConfig := ⟨false, 0, false⟩

/-- Fixture: an operator of type tag 0. -/
def opA : Operator := ⟨0, 0⟩

/-- Fixture: an operator of type tag 1. -/
def opB : Operator := ⟨1, 1⟩

/-- Fixture: an operator of type tag 2. -/
def opC : Operator := ⟨2, 2⟩

/-- Fixture: a singleton group of type 0. -/
def gA : OpGroup := ⟨opA, []⟩

/-- Fixture: a singleton group of type 1. -/
def gB : OpGroup := ⟨opB, []⟩

/-- Fixture: a singleton group of type 2. -/
def gC : OpGroup := ⟨opC, []⟩

/-- Fixture: an instantiated builder whose `build_step` returns a single
tensor handle `t`. -/
def instTensor (t : Nat) : OpBuilderInst :=
  { config := cfg0, stepImpl := some (fun s => .ok (.tensor t, s)), postImpl := none }

/-- Fixture: an instantiated builder whose `build_step` returns a list
of tensor handles `ts`. -/
def instSeq (ts : List Nat) : OpBuilderInst :=
  { config := cfg0, stepImpl := some (fun s => .ok (.seq ts, s)), postImpl := none }

/-- Fixture: an instantiated builder whose `build_step` returns `None`
(or any non-tensor, non-sequence value). -/
def instOther : OpBuilderInst :=
  { config := cfg0, stepImpl := some (fun s => .ok (.otherValue, s)), postImpl := none }

/-- Fixture: a build class whose instances return a single tensor `t`
from `build_step`. -/
def clsTensor (t : Nat) : OpBuilderClass :=
  { isOpBuilderSubclass := true,
    init := fun _ s c => ({ instTensor t with config := c }, s) }

/-- Fixture: a build class whose instances return the tensor list `ts`
from `build_step`. -/
def clsSeq (ts : List Nat) : OpBuilderClass :=
  { isOpBuilderSubclass := true,
    init := fun _ s c => ({ instSeq ts with config := c }, s) }

/-- Fixture: a builder state over plan `[gA, gB, gC]` with instantiated
builders producing a tensor, a sequence, and a non-tensor value. -/
def bcFull : Builder :=
  { plan := [gA, gB, gC], signals := [], config := cfg0,
    op_builds := [(gA, instTensor 5), (gB, instSeq [7, 8]), (gC, instOther)] }

/-- Fixture: a builder state over plan `[gA, gB]` with no builders
instantiated yet (as right after `Builder.__init__`). -/
def bcFresh : Builder :=
  { plan := [gA, gB], signals := [], config := cfg0, op_builds := [] }

/-- Fixture: a registry holding build classes for type tags 0 and 1. -/
def regAB : Registry := [(0, clsTensor 5), (1, clsSeq [7, 8])]

/-- Fixture: a builder state over the singleton plan `[gA]` with no
builders instantiated yet. -/
def bcSingle : Builder :=
  { plan := [gA], signals := [], config := cfg0, op_builds := [] }

/-- Fixture: a two-registry dispatch function: registry 0 raises a
`BuildError`, any other registry succeeds. -/
def twoTierDispatch (reg o : Nat) : Except Exc Nat :=
  if reg = 0 then .error (.buildError (.custom 9)) else .ok (o + 1)

/-- Fixture: a model operator whose `make_step` raises `e`. -/
def opRaising (e : Exc) : ModelOp :=
  { initSignals := fun s => s, makeStep := fun _ _ => .error e }

/-- Fixture: an empty model with the given `fail_fast` flag. -/
def freshModel (ff : Bool) : NengoModel :=
  { fail_fast := ff, dt := 1, operators := [] }

/- Helper lemmas about association lists with Python dict semantics. -/

theorem alookup_ainsert_self {α β : Type} [DecidableEq α] (k : α) (v : β)
    (d : List (α × β)) : alookup k (ainsert k v d) = some v := by
  induction d with
  | nil => simp [alookup, ainsert]
  | cons p d ih =>
    by_cases h : p.1 = k
    · simp [ainsert, alookup, h]
    · simp [ainsert, alookup, h, ih]

theorem alookup_ainsert_of_ne {α β : Type} [DecidableEq α] {a k : α} (v : β)
    (d : List (α × β)) (h : a ≠ k) :
    alookup a (ainsert k v d) = alookup a d := by
  induction d with
  | nil => simp [alookup, ainsert, Ne.symm h]
  | cons p d ih =>
    obtain ⟨pa, pb⟩ := p
    by_cases hp : pa = k
    · subst hp
      simp [ainsert, alookup, Ne.symm h]
    · by_cases ha : pa = a
      · simp [ainsert, alookup, hp, ha, h]
      · simp [ainsert, alookup, hp, ha, ih]

theorem ainsert_of_alookup_none {α β : Type} [DecidableEq α] {k : α} (v : β)
    {d : List (α × β)} (h : alookup k d = none) :
    ainsert k v d = d ++ [(k, v)] := by
  induction d with
  | nil => simp [ainsert]
  | cons p d ih =>
    by_cases hp : p.1 = k
    · simp [alookup, hp] at h
    · simp only [alookup, hp, if_false] at h
      simp [ainsert, hp, ih h]

/- Helper lemmas about the `Builder.build` loop. -/

theorem buildFrom_preserves (groups : List OpGroup) :
    ∀ (b : Builder) (acc : List Nat) (log : List OpGroup),
      (Builder.buildFrom b groups acc log).builder.op_builds = b.op_builds ∧
      (Builder.buildFrom b groups acc log).builder.plan = b.plan := by
  induction groups with
  | nil => intro b acc log; simp [Builder.buildFrom]
  | cons ops plan_rest ih =>
    intro b acc log
    cases halook : alookup ops b.op_builds with
    | none => simp [Builder.buildFrom, halook]
    | some inst =>
      cases hstep : inst.buildStep b.signals with
      | error e => simp [Builder.buildFrom, halook, hstep]
      | ok p =>
        obtain ⟨out, signals'⟩ := p
        simp only [Builder.buildFrom, halook, hstep]
        exact ih _ _ _

theorem buildFrom_side_effects (groups : List OpGroup) :
    ∀ (b : Builder) (acc : List Nat) (log : List OpGroup),
      (Builder.buildFrom b groups acc log).side_effects =
        acc ++ flattenAll (Builder.outputTrace b groups) := by
  induction groups with
  | nil => intro b acc log; simp [Builder.buildFrom, Builder.outputTrace, flattenAll]
  | cons ops plan_rest ih =>
    intro b acc log
    cases halook : alookup ops b.op_builds with
    | none => simp [Builder.buildFrom, Builder.outputTrace, halook, flattenAll]
    | some inst =>
      cases hstep : inst.buildStep b.signals with
      | error e => simp [Builder.buildFrom, Builder.outputTrace, halook, hstep, flattenAll]
      | ok p =>
        obtain ⟨out, signals'⟩ := p
        simp only [Builder.buildFrom, Builder.outputTrace, halook, hstep, flattenAll]
        rw [ih]
        cases out <;> simp [flattenOutput]

theorem buildFrom_calls (groups : List OpGroup) :
    ∀ (b : Builder) (acc : List Nat) (log : List OpGroup),
      (Builder.buildFrom b groups acc log).err = none →
      (Builder.buildFrom b groups acc log).calls = log ++ groups := by
  induction groups with
  | nil => intro b acc log _; simp [Builder.buildFrom]
  | cons ops plan_rest ih =>
    intro b acc log herr
    cases halook : alookup ops b.op_builds with
    | none => simp [Builder.buildFrom, halook] at herr
    | some inst =>
      cases hstep : inst.buildStep b.signals with
      | error e => simp [Builder.buildFrom, halook, hstep] at herr
      | ok p =>
        obtain ⟨out, signals'⟩ := p
        simp only [Builder.buildFrom, halook, hstep] at herr ⊢
        rw [ih _ _ _ herr]
        simp

theorem buildFrom_trace_length (groups : List OpGroup) :
    ∀ (b : Builder) (acc : List Nat) (log : List OpGroup),
      (Builder.buildFrom b groups acc log).err = none →
      (Builder.outputTrace b groups).length = groups.length := by
  induction groups with
  | nil => intro b acc log _; simp [Builder.outputTrace]
  | cons ops plan_rest ih =>
    intro b acc log herr
    cases halook : alookup ops b.op_builds with
    | none => simp [Builder.buildFrom, halook] at herr
    | some inst =>
      cases hstep : inst.buildStep b.signals with
      | error e => simp [Builder.buildFrom, halook, hstep] at herr
      | ok p =>
        obtain ⟨out, signals'⟩ := p
        simp only [Builder.buildFrom, halook, hstep] at herr
        simp only [Builder.outputTrace, halook, hstep, List.length_cons]
        simpa using ih _ _ _ herr

/- Helper lemmas about the `Builder.pre_build` loop. -/

theorem preBuildFrom_registered (builders : Registry) (groups : List OpGroup) :
    ∀ b : Builder,
      (∀ g ∈ groups, (alookup g.repType builders).isSome = true) →
      groups.Nodup →
      (∀ g ∈ groups, alookup g b.op_builds = none) →
      (Builder.preBuildFrom builders b groups).err = none ∧
      (Builder.preBuildFrom builders b groups).instantiated = groups ∧
      (Builder.preBuildFrom builders b groups).builder.op_builds.map Prod.fst =
        b.op_builds.map Prod.fst ++ groups ∧
      (Builder.preBuildFrom builders b groups).builder.plan = b.plan := by
  induction groups with
  | nil => intro b _ _ _; simp [Builder.preBuildFrom]
  | cons ops plan_rest ih =>
    intro b hall hnodup hfresh
    have hops : (alookup ops.repType builders).isSome = true :=
      hall ops (List.mem_cons_self _ _)
    obtain ⟨cls, hcls⟩ := Option.isSome_iff_exists.mp hops
    have hopsfresh : alookup ops b.op_builds = none :=
      hfresh ops (List.mem_cons_self _ _)
    have hnotmem : ops ∉ plan_rest := (List.nodup_cons.mp hnodup).1
    have hall' : ∀ g ∈ plan_rest, (alookup g.repType builders).isSome = true :=
      fun g hg => hall g (List.mem_cons_of_mem _ hg)
    have hfresh' : ∀ inst : OpBuilderInst, ∀ g ∈ plan_rest,
        alookup g (ainsert ops inst b.op_builds) = none := by
      intro inst g hg
      have hne : g ≠ ops := by
        intro hgo
        rw [hgo] at hg
        exact hnotmem hg
      rw [alookup_ainsert_of_ne _ _ hne]
      exact hfresh g (List.mem_cons_of_mem _ hg)
    have hkeys : ∀ inst : OpBuilderInst,
        (ainsert ops inst b.op_builds).map Prod.fst =
          b.op_builds.map Prod.fst ++ [ops] := by
      intro inst
      rw [ainsert_of_alookup_none _ hopsfresh, List.map_append]
      rfl
    simp only [Builder.preBuildFrom, hcls]
    have IH := ih
      { b with
        signals := (cls.init ops b.signals b.config).2,
        op_builds := ainsert ops (cls.init ops b.signals b.config).1 b.op_builds }
      hall' (List.nodup_cons.mp hnodup).2 (hfresh' _)
    refine ⟨IH.1, ?_, ?_, ?_⟩
    · simpa using IH.2.1
    · rw [IH.2.2.1]
      simp only [hkeys]
      simp
    · simpa using IH.2.2.2

theorem preBuildFrom_unregistered (builders : Registry) (pre : List OpGroup) :
    ∀ (b : Builder) (g : OpGroup) (post : List OpGroup),
      (∀ g' ∈ pre, (alookup g'.repType builders).isSome = true) →
      alookup g.repType builders = none →
      alookup g b.op_builds = none →
      (Builder.preBuildFrom builders b (pre ++ g :: post)).err =
        some (Exc.buildError (BuildErr.noBuilderFor g.repType)) ∧
      alookup g
        (Builder.preBuildFrom builders b (pre ++ g :: post)).builder.op_builds =
        none := by
  induction pre with
  | nil =>
    intro b g post _ hg hfresh
    simp only [List.nil_append, Builder.preBuildFrom, hg]
    exact ⟨trivial, hfresh⟩
  | cons p pre ih =>
    intro b g post hpre hg hfresh
    have hp : (alookup p.repType builders).isSome = true :=
      hpre p (List.mem_cons_self _ _)
    obtain ⟨cls, hcls⟩ := Option.isSome_iff_exists.mp hp
    have hgp : g ≠ p := by
      intro hgp
      rw [hgp, hcls] at hg
      exact Option.noConfusion hg
    have hfresh' : ∀ inst : OpBuilderInst,
        alookup g (ainsert p inst b.op_builds) = none := by
      intro inst
      rw [alookup_ainsert_of_ne _ _ hgp]
      exact hfresh
    simp only [List.cons_append, Builder.preBuildFrom, hcls]
    exact ih _ g post (fun g' hg' => hpre g' (List.mem_cons_of_mem _ hg')) hg
      (hfresh' _)

/-- C1: if `Builder.pre_build` reaches a group whose representative
operator's type has no entry in the builder registry, it fails with the
`BuildError` naming that operator type ("No registered builder for
operators of type %r"), and no builder instance is stored in `op_builds`
under that group's key. -/
theorem pre_build_unregistered_fails
    (builders : Registry) (b : Builder) (pre post : List OpGroup) (g : OpGroup)
    (hplan : b.plan = pre ++ g :: post)
    (hpre : ∀ g' ∈ pre, (alookup g'.repType builders).isSome = true)
    (hg : alookup g.repType builders = none)
    (hfresh : alookup g b.op_builds = none) :
    (Builder.preBuild builders b).err =
      some (Exc.buildError (BuildErr.noBuilderFor g.repType)) ∧
    alookup g (Builder.preBuild builders b).builder.op_builds = none := by
  simp only [Builder.preBuild]
  rw [hplan]
  exact preBuildFrom_unregistered builders pre b g post hpre hg hfresh

/-- Witness for C1: registry for types 0 and 1, plan `[gA, gC]` where
`gC`'s type 2 is unregistered; `pre_build` fails naming type 2 and
stores nothing under `gC`. -/
theorem pre_build_unregistered_fails_w :
    (Builder.preBuild regAB
        { plan := [gA, gC], signals := [], config := cfg0, op_builds := [] }).err =
      some (Exc.buildError (BuildErr.noBuilderFor 2)) ∧
    alookup gC
      (Builder.preBuild regAB
        { plan := [gA, gC], signals := [], config := cfg0,
          op_builds := [] }).builder.op_builds = none :=
  pre_build_unregistered_fails regAB
    { plan := [gA, gC], signals := [], config := cfg0, op_builds := [] }
    [gA] [] gC rfl (by decide) rfl rfl

/-- C2: for a plan whose groups all have instantiated builders, a
successful `Builder.build` returns exactly the flattening, in plan
order, of every group's `build_step` output: a single tensor contributes
one element, a list/tuple is expanded in place, anything else
contributes nothing; and the output trace covers every group of the
plan. -/
theorem build_returns_flattened_outputs
    (b : Builder)
    (_hinst : ∀ g ∈ b.plan, (alookup g b.op_builds).isSome = true)
    (hok : (Builder.build b).err = none) :
    (Builder.build b).side_effects = flattenAll (Builder.outputTrace b b.plan) ∧
    (Builder.outputTrace b b.plan).length = b.plan.length := by
  constructor
  · have h := buildFrom_side_effects b.plan b [] []
    simpa [Builder.build] using h
  · have h := buildFrom_trace_length b.plan b [] []
    apply h
    simpa [Builder.build] using hok

/-- Witness for C2: three groups producing a tensor, a sequence, and a
non-tensor value; the side effects are the flattened trace. -/
theorem build_returns_flattened_outputs_w :
    (Builder.build bcFull).side_effects =
      flattenAll (Builder.outputTrace bcFull bcFull.plan) ∧
    (Builder.outputTrace bcFull bcFull.plan).length = bcFull.plan.length :=
  build_returns_flattened_outputs bcFull (by decide) (by decide)

/-- C3: for a plan whose group types are all registered (each exactly
once), one `pre_build` call from an empty `op_builds` succeeds, stores
exactly one builder instance per group with the keys in plan order, and
any subsequent successful `build` call on a builder with that plan
invokes `build_step` exactly once per group, in plan order, leaving
`op_builds` and the plan unchanged. -/
theorem pre_build_once_build_once
    (builders : Registry) (b : Builder)
    (_hreg : (builders.map Prod.fst).Nodup)
    (hall : ∀ g ∈ b.plan, (alookup g.repType builders).isSome = true)
    (hnodup : b.plan.Nodup)
    (hempty : b.op_builds = []) :
    (Builder.preBuild builders b).err = none ∧
    (Builder.preBuild builders b).instantiated = b.plan ∧
    (Builder.preBuild builders b).builder.op_builds.map Prod.fst = b.plan ∧
    (Builder.preBuild builders b).builder.plan = b.plan ∧
    (∀ b2 : Builder, b2.plan = b.plan →
      (Builder.build b2).err = none →
      (Builder.build b2).calls = b.plan ∧
      (Builder.build b2).builder.plan = b.plan ∧
      (Builder.build b2).builder.op_builds = b2.op_builds) := by
  have hfresh : ∀ g ∈ b.plan, alookup g b.op_builds = none := by
    intro g _
    rw [hempty]
    rfl
  have H := preBuildFrom_registered builders b.plan b hall hnodup hfresh
  simp only [Builder.preBuild]
  refine ⟨H.1, H.2.1, ?_, H.2.2.2, ?_⟩
  · have hk := H.2.2.1
    rw [hempty] at hk
    simpa using hk
  · intro b2 hplan2 herr2
    have herr2' : (Builder.buildFrom b2 b2.plan [] []).err = none := by
      simpa [Builder.build] using herr2
    refine ⟨?_, ?_, ?_⟩
    · have hc := buildFrom_calls b2.plan b2 [] [] herr2'
      simp only [Builder.build]
      rw [hc, List.nil_append, hplan2]
    · have hp := (buildFrom_preserves b2.plan b2 [] []).2
      simp only [Builder.build]
      rw [hp, hplan2]
    · exact (buildFrom_preserves b2.plan b2 [] []).1

/-- Witness for C3: registry for types 0 and 1 and a fresh builder over
plan `[gA, gB]`; `pre_build` stores keys `[gA, gB]` and the subsequent
`build` invokes `build_step` once per group, in order. -/
theorem pre_build_once_build_once_w :
    (Builder.preBuild regAB bcFresh).err = none ∧
    (Builder.preBuild regAB bcFresh).builder.op_builds.map Prod.fst =
      bcFresh.plan ∧
    (Builder.build (Builder.preBuild regAB bcFresh).builder).calls =
      bcFresh.plan := by
  have H := pre_build_once_build_once regAB bcFresh (by decide) (by decide)
    (by decide) rfl
  exact ⟨H.1, H.2.2.1, (H.2.2.2.2 _ (by decide) (by decide)).1⟩

/-- C4: registering builder class `B1` then `B2` for the same operator
type `T` via `Builder.register` does not raise (the function is total),
the second registration emits the "already has a builder" warning, and
afterwards the registry maps `T` to `B2`, so a later `pre_build` on a
group of type `T` instantiates `B2`. -/
theorem register_twice_overwrites
    (builders : Registry) (T : Nat) (B1 B2 : OpBuilderClass)
    (b : Builder) (g : OpGroup)
    (hT : g.repType = T) (hplan : b.plan = [g]) (hempty : b.op_builds = []) :
    RegWarning.alreadyHasBuilder T ∈
      (Builder.register (Builder.register builders T B1).1 T B2).2 ∧
    alookup T (Builder.register (Builder.register builders T B1).1 T B2).1 =
      some B2 ∧
    (Builder.preBuild (Builder.register (Builder.register builders T B1).1 T B2).1
        b).builder.op_builds = [(g, (B2.init g b.signals b.config).1)] ∧
    (Builder.preBuild (Builder.register (Builder.register builders T B1).1 T B2).1
        b).err = none := by
  have hr1 : alookup T (Builder.register builders T B1).1 = some B1 := by
    simp only [Builder.register]
    exact alookup_ainsert_self T B1 builders
  have hr2 : alookup T (Builder.register (Builder.register builders T B1).1 T B2).1 =
      some B2 := by
    simp only [Builder.register]
    exact alookup_ainsert_self T B2 _
  have hlook : alookup g.repType
      (Builder.register (Builder.register builders T B1).1 T B2).1 = some B2 := by
    rw [hT]
    exact hr2
  refine ⟨?_, hr2, ?_⟩
  · simp only [Builder.register]
    have : (alookup T (Builder.register builders T B1).1).isSome = true := by
      rw [hr1]; rfl
    simp only [Builder.register] at this
    simp [this]
  · simp only [Builder.preBuild, hplan, Builder.preBuildFrom, hlook, hempty]
    simp [ainsert]

/-- Witness for C4: registering `clsTensor 1` then `clsSeq [2]` for type
0 warns and leaves `clsSeq [2]` in the registry, which `pre_build` then
instantiates for the group `gA`. -/
theorem register_twice_overwrites_w :
    RegWarning.alreadyHasBuilder 0 ∈
      (Builder.register (Builder.register [] 0 (clsTensor 1)).1 0 (clsSeq [2])).2 ∧
    alookup 0 (Builder.register (Builder.register [] 0 (clsTensor 1)).1 0
        (clsSeq [2])).1 = some (clsSeq [2]) ∧
    (Builder.preBuild (Builder.register (Builder.register [] 0 (clsTensor 1)).1 0
        (clsSeq [2])).1 bcSingle).builder.op_builds =
      [(gA, ((clsSeq [2]).init gA bcSingle.signals bcSingle.config).1)] ∧
    (Builder.preBuild (Builder.register (Builder.register [] 0 (clsTensor 1)).1 0
        (clsSeq [2])).1 bcSingle).err = none :=
  register_twice_overwrites [] 0 (clsTensor 1) (clsSeq [2]) bcSingle gA rfl rfl rfl

/-- C5: with `fail_fast=True`, `NengoModel.add_op` on an operator whose
`make_step` raises propagates that exception; with `fail_fast=False`,
the same insertion succeeds and `make_step` is never invoked. -/
theorem add_op_fail_fast_policy (m : NengoModel) (op : ModelOp) (e : Exc) :
    (m.fail_fast = true →
      op.makeStep (op.initSignals []) m.dt = .error e →
      (m.addOp op).err = some e) ∧
    (m.fail_fast = false →
      (m.addOp op).err = none ∧ (m.addOp op).makeStepCalls = 0) := by
  constructor
  · intro hff hstep
    simp [NengoModel.addOp, hff, hstep]
  · intro hff
    simp [NengoModel.addOp, hff]

/-- Witness for C5: an operator whose `make_step` raises, inserted into
a fail-fast model (exception propagates) and into a non-fail-fast model
(no error, zero `make_step` invocations). -/
theorem add_op_fail_fast_policy_w :
    ((freshModel true).addOp (opRaising (Exc.other 3))).err =
      some (Exc.other 3) ∧
    ((freshModel false).addOp (opRaising (Exc.other 3))).err = none ∧
    ((freshModel false).addOp (opRaising (Exc.other 3))).makeStepCalls = 0 := by
  have h1 := (add_op_fail_fast_policy (freshModel true) (opRaising (Exc.other 3))
    (Exc.other 3)).1 rfl rfl
  have h2 := (add_op_fail_fast_policy (freshModel false) (opRaising (Exc.other 3))
    (Exc.other 3)).2 rfl
  exact ⟨h1, h2.1, h2.2⟩

/-- C6: `NengoBuilder.build` first attempts the base dispatch with the
NengoDL registry: a successful attempt is returned as is, and an attempt
raising a `BuildError`-class condition (for any cause) falls back on the
base dispatch with the default registry, whose result is returned
without surfacing the error. -/
theorem nengo_builder_fallback {Reg Obj Res : Type}
    (dispatch : Reg → Obj → Except Exc Res)
    (dlBuilders coreBuilders : Reg) (obj : Obj) :
    (∀ r : Res, dispatch dlBuilders obj = .ok r →
      NengoBuilder.build dispatch dlBuilders coreBuilders obj = .ok r) ∧
    (∀ e : BuildErr, dispatch dlBuilders obj = .error (.buildError e) →
      NengoBuilder.build dispatch dlBuilders coreBuilders obj =
        dispatch coreBuilders obj) := by
  constructor
  · intro r h
    simp [NengoBuilder.build, h]
  · intro e h
    simp [NengoBuilder.build, h]

/-- Witness for C6: the NengoDL registry (tag 0) raises a `BuildError`,
so the dispatch falls back on the default registry (tag 1) and returns
its result. -/
theorem nengo_builder_fallback_w :
    NengoBuilder.build twoTierDispatch 0 1 3 = Except.ok 4 := by
  have h := (nengo_builder_fallback twoTierDispatch 0 1 3).2
    (BuildErr.custom 9) rfl
  exact h.trans rfl

/-- C7: on any OpBuilder instance whose class does not override
`build_step`, calling `build_step` raises the base class's
`BuildError("OpBuilders must implement a build_step function")`. -/
theorem base_build_step_raises (inst : OpBuilderInst) (signals : SignalDict)
    (hbase : inst.stepImpl = none) :
    inst.buildStep signals =
      .error (.buildError .stepUnimplemented) := by
  simp [OpBuilderInst.buildStep, hbase, OpBuilder.baseBuildStep]

/-- Witness for C7: a concrete instance with no `build_step` override
raises the base `BuildError` on an empty signal dict. -/
theorem base_build_step_raises_w :
    (OpBuilderInst.mk cfg0 none none).buildStep [] =
      .error (.buildError .stepUnimplemented) :=
  base_build_step_raises (OpBuilderInst.mk cfg0 none none) [] rfl

/-- C8: the base `OpBuilder.mergeable(x, y)` returns false for any two
operator instances, including `x` with itself. -/
theorem mergeable_always_false (x y : Operator) :
    OpBuilder.mergeable x y = false ∧ OpBuilder.mergeable x x = false :=
  ⟨rfl, rfl⟩

/-- C10: the base `OpBuilder.__init__` leaves the signal mapping
unchanged and stores only the config on the instance (no method
overrides, no writes into `signals`). -/
theorem base_init_frame (ops : OpGroup) (signals : SignalDict)
    (config : BuildConfig) :
    (OpBuilder.init ops signals config).2 = signals ∧
    (OpBuilder.init ops signals config).1 =
      { config := config, stepImpl := none, postImpl := none } :=
  ⟨rfl, rfl⟩

/-- C9: `NengoModel.add_op` appends the operator before the fail-fast
check runs: when `fail_fast=True` and `make_step` raises, `add_op`
propagates the exception but the operator is already in
`model.operators` (no rollback). -/
theorem add_op_appends_before_fail_fast (m : NengoModel) (op : ModelOp)
    (e : Exc) (hff : m.fail_fast = true)
    (hstep : op.makeStep (op.initSignals []) m.dt = .error e) :
    (m.addOp op).err = some e ∧
    (m.addOp op).model.operators = m.operators ++ [op] := by
  simp [NengoModel.addOp, hff, hstep]

/-- Witness for C9: a raising operator added to a fail-fast model: the
exception propagates and the operator is in the operators list. -/
theorem add_op_appends_before_fail_fast_w :
    ((freshModel true).addOp (opRaising (Exc.other 3))).err =
      some (Exc.other 3) ∧
    ((freshModel true).addOp (opRaising (Exc.other 3))).model.operators =
      (freshModel true).operators ++ [opRaising (Exc.other 3)] :=
  add_op_appends_before_fail_fast (freshModel true) (opRaising (Exc.other 3))
    (Exc.other 3) rfl rfl

end NengoDL
